import Mathlib

/-!
# Windows runner utilities (`windows/runner/utils.cpp`)

A shallow embedding of `GetCommandLineArguments`, `Utf8FromUtf16` and
`RegisterFileAssociation`.

* A wide string is the list of its `wchar_t` code units before the terminating
  NUL; a `const wchar_t*` is an `Option` of it (`none` is `nullptr`).
* A `std::string` is the list of its bytes.
* `int` values are integers reduced into the 32-bit signed range by `toInt32`
  wherever the source converts to or computes in `int`.
* Operating-system calls are not part of the repository.  Each one is either a
  parameter of the embedded function (so that a theorem holds for every
  behaviour of the call) or a definition marked as a model of the call.
* `CreateAndAttachConsole` is not embedded, and neither is the release of the
  token array by `LocalFree`: no statement below is about them.
-/

namespace Runner

/-! ## Machine integers and strings -/

/-- A wide string: the `wchar_t` code units before its terminating NUL. -/
abbrev WString := List Nat

/-- A `const wchar_t*` argument; `none` is `nullptr`. -/
abbrev WPtr := Option WString

/-- A `std::string`: its bytes. -/
abbrev Bytes := List Nat

/-- Largest value of `int`. -/
def INT_MAX : Int := 2147483647

/-- The value an `int` holds after a conversion to `int` or an `int` operation:
the argument reduced modulo `2^32` into `[-2^31, 2^31)`. -/
def toInt32 (x : Int) : Int := (x + 2147483648) % 4294967296 - 2147483648

/-- The code units of an ASCII literal `L"..."`. -/
def wstr (s : String) : WString := s.data.map Char.toNat

/-! ## `Utf8FromUtf16` -/

/-- Behaviour of the call
`WideCharToMultiByte(CP_UTF8, WC_ERR_INVALID_CHARS, lpWideCharStr, cchWideChar,
lpMultiByteStr, cbMultiByte, nullptr, nullptr)` as a function of the string at
`lpWideCharStr`, of `cchWideChar` and of `cbMultiByte`: the value returned and
the bytes stored at `lpMultiByteStr`. -/
abbrev Converter := WString → Int → Int → Int × Bytes

/-- One call of the conversion, as recorded in the call log. -/
structure ConvCall where
  cchWideChar : Int
  cbMultiByte : Int
deriving DecidableEq

/-- The buffer `buf` after `written` has been stored at its start; nothing is
stored past the end of the buffer. -/
def storeBytes (buf written : Bytes) : Bytes :=
  (written ++ buf.drop written.length).take buf.length

/-- `Utf8FromUtf16` together with the log of the conversion calls it makes.
`wc2mb` is the OS conversion and `max_size` the value of
`std::string::max_size()`. -/
def Utf8FromUtf16Run (wc2mb : Converter) (max_size : Nat) (utf16_string : WPtr) :
    List ConvCall × Bytes :=
  match utf16_string with
  | none => ([], [])
  | some s =>
    let target_length : Int := toInt32 (toInt32 (wc2mb s (-1) 0).1 - 1)
    let input_length : Int := toInt32 (s.length : Int)
    let utf8_string : Bytes := []
    if target_length ≤ 0 ∨ target_length.toNat > max_size then
      ([⟨-1, 0⟩], utf8_string)
    else
      let utf8_string : Bytes := List.replicate target_length.toNat 0
      let r := wc2mb s input_length target_length
      let converted_length : Int := toInt32 r.1
      let utf8_string := storeBytes utf8_string r.2
      if converted_length = 0 then
        ([⟨-1, 0⟩, ⟨input_length, target_length⟩], [])
      else
        ([⟨-1, 0⟩, ⟨input_length, target_length⟩], utf8_string)

/-- The string returned by `Utf8FromUtf16`. -/
def Utf8FromUtf16 (wc2mb : Converter) (max_size : Nat) (utf16_string : WPtr) : Bytes :=
  (Utf8FromUtf16Run wc2mb max_size utf16_string).2

/-! ### Model of the OS conversion: the strict UTF-8 encoder -/

/-- Strict UTF-16 to UTF-8 encoding of a sequence of code units; `none` when
the sequence is not valid UTF-16 (an unpaired surrogate, or a value that is
no 16-bit code unit). -/
def encodeUtf8 : List Nat → Option Bytes
  | [] => some []
  | u :: rest =>
    if u < 0x80 then
      (encodeUtf8 rest).map fun bs => u :: bs
    else if u < 0x800 then
      (encodeUtf8 rest).map fun bs => (0xC0 + u / 64) :: (0x80 + u % 64) :: bs
    else if 0xD800 ≤ u ∧ u < 0xDC00 then
      match rest with
      | [] => none
      | v :: rest2 =>
        if 0xDC00 ≤ v ∧ v < 0xE000 then
          let c := 0x10000 + (u - 0xD800) * 1024 + (v - 0xDC00)
          (encodeUtf8 rest2).map fun bs =>
            (0xF0 + c / 262144) :: (0x80 + c / 4096 % 64) :: (0x80 + c / 64 % 64) ::
              (0x80 + c % 64) :: bs
        else none
    else if 0xDC00 ≤ u ∧ u < 0xE000 then none
    else if u < 0x10000 then
      (encodeUtf8 rest).map fun bs =>
        (0xE0 + u / 4096) :: (0x80 + u / 64 % 64) :: (0x80 + u % 64) :: bs
    else none

/-- Whether `b` is a UTF-8 continuation byte. -/
def isCont (b : Nat) : Bool := decide (0x80 ≤ b ∧ b < 0xC0)

/-- Number of bytes of the UTF-8 sequence that the lead byte `b0` starts;
`0` when `b0` cannot start a sequence. -/
def seqLength (b0 : Nat) : Nat :=
  if b0 < 0x80 then 1
  else if 0xC2 ≤ b0 ∧ b0 < 0xE0 then 2
  else if 0xE0 ≤ b0 ∧ b0 < 0xF0 then 3
  else if 0xF0 ≤ b0 ∧ b0 < 0xF5 then 4
  else 0

/-- UTF-8 to UTF-16 decoding; `none` when the bytes are not well-formed
UTF-8 (truncated or overlong sequence, stray continuation byte, encoded
surrogate, value above U+10FFFF). -/
def decodeUtf8 : Bytes → Option (List Nat)
  | [] => some []
  | b0 :: rest =>
    match seqLength b0, rest with
    | 1, rest => (decodeUtf8 rest).map fun us => b0 :: us
    | 2, b1 :: rest1 =>
      if isCont b1 then
        (decodeUtf8 rest1).map fun us => ((b0 - 0xC0) * 64 + (b1 - 0x80)) :: us
      else none
    | 3, b1 :: b2 :: rest2 =>
      let c := (b0 - 0xE0) * 4096 + (b1 - 0x80) * 64 + (b2 - 0x80)
      if isCont b1 ∧ isCont b2 ∧ 0x800 ≤ c ∧ ¬ (0xD800 ≤ c ∧ c < 0xE000) then
        (decodeUtf8 rest2).map fun us => c :: us
      else none
    | 4, b1 :: b2 :: b3 :: rest3 =>
      let c := (b0 - 0xF0) * 262144 + (b1 - 0x80) * 4096 + (b2 - 0x80) * 64 + (b3 - 0x80)
      if isCont b1 ∧ isCont b2 ∧ isCont b3 ∧ 0x10000 ≤ c ∧ c < 0x110000 then
        (decodeUtf8 rest3).map fun us =>
          (0xD800 + (c - 0x10000) / 1024) :: (0xDC00 + (c - 0x10000) % 1024) :: us
      else none
    | _, _ => none

/-- Model of the OS call `WideCharToMultiByte` with code page `CP_UTF8` and
flag `WC_ERR_INVALID_CHARS`, after its documentation.  `src` is the string at
`lpWideCharStr`.  With `cchWideChar = -1` the string is converted up to and
including its terminator; with a positive `cchWideChar` that many code units
are converted; `cchWideChar = 0` fails.  Invalid UTF-16 fails (strict mode).
With `cbMultiByte = 0` the call returns the number of bytes required and
stores nothing; otherwise it stores the bytes and returns their number, and
fails when the buffer is too small.  A byte count that no `int` can hold is
reported as failure.  Failure is the return value `0`. -/
def WideCharToMultiByte : Converter := fun src cchWideChar cbMultiByte =>
  let input : Option (List Nat) :=
    if cchWideChar = -1 then some (src ++ [0])
    else if 0 < cchWideChar ∧ cchWideChar ≤ (src.length : Int) + 1 then
      some ((src ++ [0]).take cchWideChar.toNat)
    else none
  match input with
  | none => (0, [])
  | some units =>
    match encodeUtf8 units with
    | none => (0, [])
    | some bytes =>
      if (bytes.length : Int) > INT_MAX then (0, [])
      else if cbMultiByte = 0 then ((bytes.length : Int), [])
      else if (bytes.length : Int) ≤ cbMultiByte then ((bytes.length : Int), bytes)
      else (0, [])

/-! ## `GetCommandLineArguments` -/

/-- What `CommandLineToArgvW(GetCommandLineW(), &argc)` leaves behind: the
returned array (`none` is `nullptr`) and the value of `argc` after the call. -/
structure ArgvResult where
  argv : Option (List WPtr)
  argc : Int

/-- The loop `for (int i = 1; i < argc; i++) push_back(Utf8FromUtf16(argv[i]))`
from the state `(i, command_line_arguments)`.  `none` is a read outside the
array `argv`.  `argc` is the value of an `int` and the body runs only when
`i < argc`, so `i++` does not overflow. -/
def pushArguments (wc2mb : Converter) (max_size : Nat) (argv : List WPtr) (argc : Int)
    (i : Int) (command_line_arguments : List Bytes) : Option (List Bytes) :=
  if i < argc then
    match argv.get? i.toNat with
    | none => none
    | some p =>
      pushArguments wc2mb max_size argv argc (i + 1)
        (command_line_arguments ++ [Utf8FromUtf16 wc2mb max_size p])
  else some command_line_arguments
termination_by (argc - i).toNat
decreasing_by omega

/-- `GetCommandLineArguments`, given what the OS splitter returned. `none` is
a read outside the token array; `some v` is the returned vector. -/
def GetCommandLineArguments (wc2mb : Converter) (max_size : Nat) (r : ArgvResult) :
    Option (List Bytes) :=
  match r.argv with
  | none => some []
  | some argv => pushArguments wc2mb max_size argv r.argc 1 []

/-! ## `RegisterFileAssociation` -/

/-- The constant `MAX_PATH` of the Windows headers. -/
def MAX_PATH : Nat := 260

/-- Size in bytes of a `wchar_t` on Windows. -/
def sizeof_wchar_t : Nat := 2

/-- Model of the OS call `GetModuleFileNameW(nullptr, lpFilename, nSize)`, after
its documentation.  `exe` is the path of the executable as the OS resolves it
(`none`: the call fails).  The result is the value returned and the string
left in the buffer: a path that does not fit is cut to `nSize - 1` code units
and terminated, and `nSize` is returned; failure returns `0` and leaves the
zero-initialised buffer alone. -/
def GetModuleFileNameW (exe : Option WString) (nSize : Nat) : Nat × WString :=
  match exe with
  | none => (0, [])
  | some path =>
    if path.length < nSize then (path.length, path) else (nSize, path.take (nSize - 1))

/-- Expansion of a `wsprintfW` format, for the conversions the runner uses:
`%s` inserts the next wide-string argument, `%%` a percent sign, every other
character is copied. -/
def formatW : List Nat → List WString → List Nat
  | [], _ => []
  | 37 :: 115 :: fmt, arg :: args => arg ++ formatW fmt args
  | 37 :: 37 :: fmt, args => 37 :: formatW fmt args
  | c :: fmt, args => c :: formatW fmt args

/-- The limit of `wsprintfW` on its output, in characters, from its
documentation. -/
def wsprintfLimit : Nat := 1024

/-- Model of `wsprintfW(buffer, fmt, args...)`: the text left in `buffer`
before the terminator, which is the expansion of the format, cut so that text
and terminator stay within the output limit. -/
def wsprintfW (fmt : List Nat) (args : List WString) : List Nat :=
  (formatW fmt args).take (wsprintfLimit - 1)

/-- The registry under `HKEY_CURRENT_USER`: the paths of the keys that exist
and the default value of keys (the `REG_SZ` data as code units, terminator
included; the newest entry for a path is the first). -/
structure Registry where
  keys : List String
  defaults : List (String × List Nat)

/-- The default value stored for the key at `path`. -/
def Registry.defaultValue (r : Registry) (path : String) : Option (List Nat) :=
  r.defaults.lookup path

/-- A registry or shell call made by the registrar, as recorded in the log.
A key handle is the number of the handle; the parent `none` is the
predefined `HKEY_CURRENT_USER`. -/
inductive Event where
  | createKey (parent : Option Nat) (subKey : String) (result : Option Nat)
  | setValue (hKey : Nat) (data : List Nat) (cbData : Nat) (ok : Bool)
  | closeKey (hKey : Nat)
  | changeNotify
deriving DecidableEq

/-- The state the registrar acts on: the registry, the table of open key
handles (handle and path of its key), the next unused handle, and the log of
calls in the order they were made. -/
structure World where
  registry : Registry
  handles : List (Nat × String)
  nextHandle : Nat
  log : List Event

/-- The state before the registrar runs, for a given registry: no key handle
is open and nothing is logged. -/
def World.init (r : Registry) : World :=
  { registry := r, handles := [], nextHandle := 0, log := [] }

/-- Model of `RegCreateKeyExW(parent, subKey, 0, nullptr, 0, KEY_WRITE, nullptr,
&result, nullptr)`.  `ok` says whether the OS lets the call succeed.  On
success the key exists afterwards and a new handle to it is open; a failed
call changes nothing but the log. -/
def RegCreateKeyExW (w : World) (parent : Option Nat) (subKey : String) (ok : Bool) :
    World × Option Nat :=
  let parentPath : Option String :=
    match parent with
    | none => some ""
    | some h => (w.handles.lookup h).map fun p => p ++ "\\"
  match ok, parentPath with
  | true, some pre =>
    let path := pre ++ subKey
    let h := w.nextHandle
    ({ registry := { w.registry with keys := w.registry.keys.insert path },
       handles := (h, path) :: w.handles,
       nextHandle := h + 1,
       log := w.log ++ [Event.createKey parent subKey (some h)] }, some h)
  | _, _ => ({ w with log := w.log ++ [Event.createKey parent subKey none] }, none)

/-- Model of `RegSetValueExW(hKey, nullptr, 0, REG_SZ, lpData, cbData)`, where
`lpData` points at the wide string `text` followed by its terminator.  On
success the default value of the key behind `hKey` becomes the first
`cbData / sizeof(wchar_t)` code units at `lpData`. -/
def RegSetValueExW (w : World) (hKey : Nat) (text : WString) (cbData : Nat) (ok : Bool) :
    World :=
  let stored := (text ++ [0]).take (cbData / sizeof_wchar_t)
  match ok, w.handles.lookup hKey with
  | true, some path =>
    { w with
      registry := { w.registry with defaults := (path, stored) :: w.registry.defaults },
      log := w.log ++ [Event.setValue hKey stored cbData true] }
  | _, _ => { w with log := w.log ++ [Event.setValue hKey stored cbData false] }

/-- Model of `RegCloseKey(hKey)`: the handle is no longer open. -/
def RegCloseKey (w : World) (hKey : Nat) : World :=
  { w with
    handles := w.handles.filter fun e => e.1 ≠ hKey,
    log := w.log ++ [Event.closeKey hKey] }

/-- Model of `SHChangeNotify(SHCNE_ASSOCCHANGED, SHCNF_IDLIST, nullptr, nullptr)`. -/
def SHChangeNotify (w : World) : World :=
  { w with log := w.log ++ [Event.changeNotify] }

/-- Which registry calls of the registrar the OS lets succeed, one flag per
call in the source. -/
structure Outcomes where
  createProgId : Bool
  setProgId : Bool
  createIcon : Bool
  setIcon : Bool
  createCommand : Bool
  setCommand : Bool
  createExt : Bool
  setExt : Bool
deriving DecidableEq

/-- Every registry call succeeds. -/
def Outcomes.allSucceed : Outcomes :=
  ⟨true, true, true, true, true, true, true, true⟩

/-- The text the registrar formats into `cmd`:
`wsprintfW(cmd, L"\"%s\" \"%%1\"", modulePath)`. -/
def openCommand (modulePath : WString) : List Nat :=
  wsprintfW (wstr "\"%s\" \"%%1\"") [modulePath]

/-- `RegisterFileAssociation`, from the state `w0`.  `exe` is the path of the
executable as the OS resolves it and `o` the outcomes of the registry calls. -/
def RegisterFileAssociation (exe : Option WString) (o : Outcomes) (w0 : World) : World :=
  let progId : WString := wstr "Dalimaster.daliproj"
  let m := GetModuleFileNameW exe MAX_PATH
  let modulePath : WString := m.2
  if m.1 = 0 then w0
  else
    let c1 := RegCreateKeyExW w0 none "Software\\Classes\\Dalimaster.daliproj" o.createProgId
    let w1 : World :=
      match c1.2 with
      | some hKey =>
        let w := RegSetValueExW c1.1 hKey (wstr "DALI Project")
          (sizeof_wchar_t * ((wstr "DALI Project").length + 1)) o.setProgId
        let c2 := RegCreateKeyExW w (some hKey) "DefaultIcon" o.createIcon
        let w : World :=
          match c2.2 with
          | some iconKey =>
            let w := RegSetValueExW c2.1 iconKey modulePath
              (sizeof_wchar_t * (modulePath.length + 1)) o.setIcon
            RegCloseKey w iconKey
          | none => c2.1
        let c3 := RegCreateKeyExW w (some hKey) "shell\\open\\command" o.createCommand
        let w : World :=
          match c3.2 with
          | some shellKey =>
            let cmd := openCommand modulePath
            let w := RegSetValueExW c3.1 shellKey cmd
              (sizeof_wchar_t * (cmd.length + 1)) o.setCommand
            RegCloseKey w shellKey
          | none => c3.1
        RegCloseKey w hKey
      | none => c1.1
    let c4 := RegCreateKeyExW w1 none "Software\\Classes\\.daliproj" o.createExt
    let w2 : World :=
      match c4.2 with
      | some hKey =>
        let w := RegSetValueExW c4.1 hKey progId
          (sizeof_wchar_t * (progId.length + 1)) o.setExt
        RegCloseKey w hKey
      | none => c4.1
    SHChangeNotify w2

/-! ### Reading the log -/

/-- Handles the log records as opened by a successful key creation, in order. -/
def openedHandles : List Event → List Nat
  | [] => []
  | Event.createKey _ _ (some h) :: es => h :: openedHandles es
  | _ :: es => openedHandles es

/-- Handles the log records as closed, in order. -/
def closedHandles : List Event → List Nat
  | [] => []
  | Event.closeKey h :: es => h :: closedHandles es
  | _ :: es => closedHandles es

/-- Pairs `(parent, child)` of handles: `child` was opened by a successful
creation of a subkey under the open handle `parent`. -/
def subkeyPairs : List Event → List (Nat × Nat)
  | [] => []
  | Event.createKey (some p) _ (some h) :: es => (p, h) :: subkeyPairs es
  | _ :: es => subkeyPairs es

/-- Whether the log records an attempt (successful or not) to create the key
`subKey`. -/
def createAttempted (subKey : String) : List Event → Bool
  | [] => false
  | Event.createKey _ s _ :: es => s == subKey || createAttempted subKey es
  | _ :: es => createAttempted subKey es

/-- Whether the log records an attempt (successful or not) to write a value
through the handle `hKey`. -/
def writeAttempted (hKey : Nat) : List Event → Bool
  | [] => false
  | Event.setValue h _ _ _ :: es => h == hKey || writeAttempted hKey es
  | _ :: es => writeAttempted hKey es

/-! ## Lemmas on the conversion -/

theorem toInt32_eq_self {x : Int} (h1 : -2147483648 ≤ x) (h2 : x < 2147483648) :
    toInt32 x = x := by
  unfold toInt32; omega

theorem toInt32_lt (x : Int) : toInt32 x < 2147483648 := by
  unfold toInt32; omega

theorem length_storeBytes (buf written : Bytes) :
    (storeBytes buf written).length = buf.length := by
  simp only [storeBytes, List.length_take, List.length_append, List.length_drop]
  omega

theorem storeBytes_eq_of_length_eq {buf written : Bytes} (h : written.length = buf.length) :
    storeBytes buf written = written := by
  simp [storeBytes, h]

/-- The returned string has at most `INT_MAX` bytes, whatever the OS conversion does. -/
theorem length_Utf8FromUtf16_lt (wc2mb : Converter) (max_size : Nat) (p : WPtr) :
    (Utf8FromUtf16 wc2mb max_size p).length < 2147483648 := by
  cases p with
  | none => simp [Utf8FromUtf16, Utf8FromUtf16Run]
  | some s =>
    simp only [Utf8FromUtf16, Utf8FromUtf16Run]
    split
    · simp
    · split
      · simp
      · simp only [length_storeBytes, List.length_replicate]
        have := toInt32_lt (toInt32 (wc2mb s (-1) 0).1 - 1)
        omega

theorem encodeUtf8_ascii (s : List Nat) (h : ∀ u ∈ s, u < 128) : encodeUtf8 s = some s := by
  induction s with
  | nil => rw [encodeUtf8.eq_def]
  | cons u rest ih =>
    have hu : u < 128 := h u (by simp)
    have hr := ih (fun v hv => h v (by simp [hv]))
    rw [encodeUtf8.eq_def]
    simp only [hu, hr, if_true, Option.map_some']

theorem decodeUtf8_ascii (s : List Nat) (h : ∀ u ∈ s, u < 128) : decodeUtf8 s = some s := by
  induction s with
  | nil => rw [decodeUtf8]
  | cons u rest ih =>
    have hu : u < 128 := h u (by simp)
    have hr := ih (fun v hv => h v (by simp [hv]))
    have h1 : seqLength u = 1 := by simp [seqLength, hu]
    rw [decodeUtf8.eq_def]
    simp only [h1, hr, Option.map_some']

/-- Decoding never yields more code units than there are bytes. -/
theorem length_decodeUtf8_le (n : Nat) :
    ∀ (bs : Bytes) (us : List Nat), bs.length ≤ n → decodeUtf8 bs = some us →
      us.length ≤ bs.length := by
  induction n with
  | zero =>
    intro bs us hn h
    have : bs = [] := List.length_eq_zero.mp (by omega)
    subst this
    rw [decodeUtf8] at h
    cases h; simp
  | succ n ih =>
    intro bs us hn h
    rw [decodeUtf8.eq_def] at h
    split at h
    · cases h; simp
    · split at h
      all_goals try simp only at h
      all_goals try split at h
      all_goals first
        | (simp only [Option.map_eq_some'] at h
           obtain ⟨us1, hd, rfl⟩ := h
           have := ih _ us1 (by simp only [List.length_cons] at hn ⊢; omega) hd
           simp only [List.length_cons] at hn this ⊢
           omega)
        | (exact absurd h (by simp))

theorem WideCharToMultiByte_query_ascii (s : WString) (h : ∀ u ∈ s, u < 128)
    (hlen : (s.length : Int) + 1 ≤ INT_MAX) :
    WideCharToMultiByte s (-1) 0 = ((s.length : Int) + 1, []) := by
  have henc : encodeUtf8 (s ++ [0]) = some (s ++ [0]) :=
    encodeUtf8_ascii _ (by
      intro u hu
      rcases List.mem_append.mp hu with hu | hu
      · exact h u hu
      · simp at hu; omega)
  have hnot : ¬ ((s.length : Int) + 1 > INT_MAX) := by omega
  simp [WideCharToMultiByte, henc, hnot]

theorem WideCharToMultiByte_convert_ascii (s : WString) (h : ∀ u ∈ s, u < 128)
    (hpos : 0 < s.length) (hlen : (s.length : Int) + 1 ≤ INT_MAX) :
    WideCharToMultiByte s (s.length : Int) (s.length : Int) = ((s.length : Int), s) := by
  have henc : encodeUtf8 s = some s := encodeUtf8_ascii _ h
  have h1 : ¬ ((s.length : Int) = -1) := by omega
  have h2 : (0 : Int) < s.length := by omega
  have h3 : ¬ ((s.length : Int) > INT_MAX) := by omega
  have h4 : ¬ ((s.length : Int) = 0) := by omega
  simp [WideCharToMultiByte, henc, h1, h2, h3, h4]

theorem pushArguments_eq (wc2mb : Converter) (max_size : Nat) (argv : List WPtr) (n : Nat) :
    ∀ (i : Nat) (acc : List Bytes), i + n = argv.length →
      pushArguments wc2mb max_size argv (argv.length : Int) (i : Int) acc =
        some (acc ++ (argv.drop i).map (Utf8FromUtf16 wc2mb max_size)) := by
  induction n with
  | zero =>
    intro i acc h
    rw [pushArguments]
    have h1 : ¬ ((i : Int) < (argv.length : Int)) := by omega
    have h2 : argv.drop i = [] := List.drop_eq_nil_of_le (by omega)
    simp [h1, h2]
  | succ n ih =>
    intro i acc h
    rw [pushArguments]
    have h1 : (i : Int) < (argv.length : Int) := by omega
    have hi : i < argv.length := by omega
    have h2 : argv.get? i = some (argv.get ⟨i, hi⟩) := List.get?_eq_get hi
    have h3 : argv.drop i = argv.get ⟨i, hi⟩ :: argv.drop (i + 1) :=
      List.drop_eq_getElem_cons hi
    have h4 := ih (i + 1) (acc ++ [Utf8FromUtf16 wc2mb max_size (argv.get ⟨i, hi⟩)]) (by omega)
    simp only [h1, if_true, Int.toNat_ofNat, h2]
    rw [show ((i : Int) + 1) = ((i + 1 : Nat) : Int) by simp, h4, h3]
    simp only [List.map_cons, List.append_assoc, List.cons_append, List.nil_append]


theorem encodeUtf8_append_zero_of_none (n : Nat) :
    ∀ s : List Nat, s.length ≤ n → encodeUtf8 s = none → encodeUtf8 (s ++ [0]) = none := by
  induction n with
  | zero =>
    intro s hn h
    have : s = [] := List.length_eq_zero.mp (by omega)
    subst this
    rw [encodeUtf8.eq_def] at h
    simp at h
  | succ n ih =>
    intro s hn h
    cases s with
    | nil => rw [encodeUtf8.eq_def] at h; simp at h
    | cons u rest =>
      simp only [List.length_cons] at hn
      cases rest with
      | nil =>
        rw [encodeUtf8.eq_def] at h
        simp only [List.nil_append, List.cons_append]
        rw [encodeUtf8.eq_def]
        have e0 : encodeUtf8 [] = some [] := by rw [encodeUtf8.eq_def]
        have e1 : encodeUtf8 [0] = some [0] := by decide
        simp only [e0, e1, Option.map_some'] at h ⊢
        split_ifs at h ⊢ <;> simp_all
      | cons v rest2 =>
        have ih1 := ih (v :: rest2) (by simp only [List.length_cons] at hn ⊢; omega)
        have ih2 := ih rest2 (by simp only [List.length_cons] at hn ⊢; omega)
        rw [encodeUtf8.eq_def] at h
        simp only [List.cons_append] at ih1 ⊢
        rw [encodeUtf8.eq_def]
        simp only at h ⊢
        split_ifs at h ⊢ <;> simp_all

theorem WideCharToMultiByte_rejects_invalid (s : WString) (cb : Int)
    (h : encodeUtf8 s = none) : (WideCharToMultiByte s (-1) cb).1 = 0 := by
  have := encodeUtf8_append_zero_of_none s.length s (Nat.le_refl _) h
  simp [WideCharToMultiByte, this]

/-! ## Lemmas on the registrar -/

theorem wstr_format : wstr "\"%s\" \"%%1\"" = [34, 37, 115, 34, 32, 34, 37, 37, 49, 34] := rfl

theorem wstr_quote : wstr "\"" = [34] := rfl

theorem wstr_quoted_arg : wstr "\" \"%1\"" = [34, 32, 34, 37, 49, 34] := rfl

/-- The formatted command is the path in double quotes, a space and the
quoted `%1`, for every path that fits the `modulePath` buffer. -/
theorem openCommand_eq (p : WString) (hp : p.length < MAX_PATH) :
    openCommand p = wstr "\"" ++ p ++ wstr "\" \"%1\"" := by
  have h1 : formatW [34, 37, 115, 34, 32, 34, 37, 37, 49, 34] [p] =
      34 :: (p ++ [34, 32, 34, 37, 49, 34]) := by
    simp [formatW]
  have hp259 : p.length < 260 := hp
  simp only [openCommand, wsprintfW, wstr_format, h1, wstr_quote, wstr_quoted_arg]
  exact List.take_of_length_le (by simp [wsprintfLimit]; omega)

theorem length_openCommand (p : WString) (hp : p.length < MAX_PATH) :
    (openCommand p).length = p.length + 7 := by
  rw [openCommand_eq p hp]
  simp [wstr_quote, wstr_quoted_arg]

/-- The string left in `modulePath` is shorter than the buffer. -/
theorem length_modulePath_lt (exe : Option WString) :
    (GetModuleFileNameW exe MAX_PATH).2.length < MAX_PATH := by
  cases exe with
  | none => simp [GetModuleFileNameW, MAX_PATH]
  | some p =>
    simp only [GetModuleFileNameW]
    split
    · assumption
    · simp [MAX_PATH]

/-- A write of `sizeof(wchar_t) * (wcslen(t) + 1)` bytes stores the whole
string and its terminator. -/
theorem take_terminated (t : WString) :
    (t ++ [0]).take (sizeof_wchar_t * (t.length + 1) / sizeof_wchar_t) = t ++ [0] := by
  have : sizeof_wchar_t * (t.length + 1) / sizeof_wchar_t = t.length + 1 := by
    simp [sizeof_wchar_t]
  rw [this]
  exact List.take_of_length_le (by simp)

@[simp]
theorem handles_RegSetValueExW (w : World) (h : Nat) (t : WString) (cb : Nat)
    (ok : Bool) : (RegSetValueExW w h t cb ok).handles = w.handles := by
  unfold RegSetValueExW; split <;> rfl

@[simp]
theorem nextHandle_RegSetValueExW (w : World) (h : Nat) (t : WString) (cb : Nat)
    (ok : Bool) : (RegSetValueExW w h t cb ok).nextHandle = w.nextHandle := by
  unfold RegSetValueExW; split <;> rfl

@[simp]
theorem keys_RegSetValueExW (w : World) (h : Nat) (t : WString) (cb : Nat)
    (ok : Bool) : (RegSetValueExW w h t cb ok).registry.keys = w.registry.keys := by
  unfold RegSetValueExW; split <;> rfl

@[simp]
theorem log_RegSetValueExW (w : World) (h : Nat) (t : WString) (cb : Nat)
    (ok : Bool) :
    (RegSetValueExW w h t cb ok).log =
      w.log ++ [Event.setValue h ((t ++ [0]).take (cb / sizeof_wchar_t)) cb
        (ok && (w.handles.lookup h).isSome)] := by
  cases ok <;> cases hl : w.handles.lookup h <;> simp [RegSetValueExW, hl]

/-! ## The claims -/

/-- C1: when the OS splitter returns an array of `argc` tokens,
`GetCommandLineArguments` returns a vector (no read outside the array) that is
the conversion of the tokens after the first, in order: it has
`max (argc - 1) 0` elements and its element `i` is `Utf8FromUtf16` of
token `i + 1`. -/
theorem GetCommandLineArguments_tokens (wc2mb : Converter) (max_size : Nat)
    (argv : List WPtr) (argc : Int) (hargc : argc = (argv.length : Int)) :
    ∃ result : List Bytes,
      GetCommandLineArguments wc2mb max_size ⟨some argv, argc⟩ = some result ∧
      result = (argv.drop 1).map (Utf8FromUtf16 wc2mb max_size) ∧
      (result.length : Int) = max (argc - 1) 0 ∧
      ∀ i : Nat, i < result.length →
        result.get? i = (argv.get? (i + 1)).map (Utf8FromUtf16 wc2mb max_size) := by
  subst hargc
  refine ⟨(argv.drop 1).map (Utf8FromUtf16 wc2mb max_size), ?_, rfl, ?_, ?_⟩
  · cases argv with
    | nil =>
      simp only [GetCommandLineArguments]
      rw [pushArguments]
      simp
    | cons a rest =>
      have := pushArguments_eq wc2mb max_size (a :: rest) rest.length 1 [] (by simp; omega)
      simp only [GetCommandLineArguments]
      simpa using this
  · simp only [List.length_map, List.length_drop]
    omega
  · intro i _
    simp [List.get?_eq_getElem?, List.getElem?_map, List.getElem?_drop, Nat.add_comm]

/-- C1 at the tokens of `app.exe "arg one" arg2`: the result is
`["arg one", "arg2"]`. -/
theorem GetCommandLineArguments_tokens_witness :
    (3 : Int) = (([some (wstr "app.exe"), some (wstr "arg one"), some (wstr "arg2")] :
      List WPtr).length : Int) ∧
    GetCommandLineArguments WideCharToMultiByte 2147483647
      ⟨some [some (wstr "app.exe"), some (wstr "arg one"), some (wstr "arg2")], 3⟩ =
        some [wstr "arg one", wstr "arg2"] := by
  refine ⟨by decide, ?_⟩
  obtain ⟨result, h1, h2, -, -⟩ := GetCommandLineArguments_tokens WideCharToMultiByte 2147483647
    [some (wstr "app.exe"), some (wstr "arg one"), some (wstr "arg2")] 3 (by decide)
  rw [h1, h2]
  decide

/-- C7: when the OS splitter returns a null token array, `GetCommandLineArguments`
returns the empty vector, whatever value `argc` holds. -/
theorem GetCommandLineArguments_null (wc2mb : Converter) (max_size : Nat) (argc : Int) :
    GetCommandLineArguments wc2mb max_size ⟨none, argc⟩ = some [] := by
  simp [GetCommandLineArguments]

/-- C9: on a null pointer `Utf8FromUtf16` returns the empty string, and its
log of conversion calls is empty: the OS conversion is not called. -/
theorem Utf8FromUtf16_null (wc2mb : Converter) (max_size : Nat) :
    Utf8FromUtf16 wc2mb max_size none = [] ∧
      (Utf8FromUtf16Run wc2mb max_size none).1 = [] := by
  simp [Utf8FromUtf16, Utf8FromUtf16Run]

/-- C3: whenever the OS conversion reports failure (returns `0`), at the size
query or at the conversion proper, `Utf8FromUtf16` returns the empty string,
whatever the OS conversion stored in the buffer. -/
theorem Utf8FromUtf16_strict_rejection (wc2mb : Converter) (max_size : Nat) (s : WString)
    (h : (wc2mb s (-1) 0).1 = 0 ∨
      (wc2mb s (toInt32 (s.length : Int)) (toInt32 (toInt32 (wc2mb s (-1) 0).1 - 1))).1 = 0) :
    Utf8FromUtf16 wc2mb max_size (some s) = [] := by
  simp only [Utf8FromUtf16, Utf8FromUtf16Run]
  rcases h with h | h
  · have : toInt32 (toInt32 (wc2mb s (-1) 0).1 - 1) = -1 := by
      rw [h]; decide
    simp [this]
  · split
    · rfl
    · have : toInt32 (wc2mb s (toInt32 (s.length : Int))
          (toInt32 (toInt32 (wc2mb s (-1) 0).1 - 1))).1 = 0 := by
        rw [h]; decide
      simp [this]

/-- C3 at the unpaired surrogate `D800`, with the strict encoder as the OS
conversion. -/
theorem Utf8FromUtf16_strict_rejection_witness :
    (WideCharToMultiByte [0xD800] (-1) 0).1 = 0 ∧
      Utf8FromUtf16 WideCharToMultiByte 2147483647 (some [0xD800]) = [] :=
  ⟨by decide, Utf8FromUtf16_strict_rejection WideCharToMultiByte 2147483647 [0xD800]
    (Or.inl (by decide))⟩

/-- C2, as amended: with the strict encoder as the OS conversion, every wide
string of ASCII code units (1..127) whose byte count with terminator fits an
`int` (at most `INT_MAX - 1` code units) and which is no longer than
`max_size()` is returned byte for byte: the result is the input, it decodes
back to the input, and it has the input's length (no terminator byte, nothing
cut).  The empty wide string gives the empty string. -/
theorem Utf8FromUtf16_ascii_roundtrip (max_size : Nat) (s : WString)
    (hascii : ∀ u ∈ s, 1 ≤ u ∧ u ≤ 127)
    (hint : (s.length : Int) + 1 ≤ INT_MAX)
    (hmax : s.length ≤ max_size) :
    Utf8FromUtf16 WideCharToMultiByte max_size (some s) = s ∧
      decodeUtf8 (Utf8FromUtf16 WideCharToMultiByte max_size (some s)) = some s ∧
      (Utf8FromUtf16 WideCharToMultiByte max_size (some s)).length = s.length ∧
      Utf8FromUtf16 WideCharToMultiByte max_size (some []) = [] := by
  have h128 : ∀ u ∈ s, u < 128 := fun u hu => by have := hascii u hu; omega
  have hempty : Utf8FromUtf16 WideCharToMultiByte max_size (some []) = [] := by
    simp [Utf8FromUtf16, Utf8FromUtf16Run, WideCharToMultiByte, encodeUtf8, INT_MAX, toInt32]
  have key : Utf8FromUtf16 WideCharToMultiByte max_size (some s) = s := by
    rcases Nat.eq_zero_or_pos s.length with h0 | hpos
    · have : s = [] := List.length_eq_zero.mp h0
      subst this
      exact hempty
    · have hI : (s.length : Int) + 1 ≤ 2147483647 := hint
      have hq := WideCharToMultiByte_query_ascii s h128 hint
      have hc := WideCharToMultiByte_convert_ascii s h128 hpos hint
      have ht : toInt32 (toInt32 ((s.length : Int) + 1) - 1) = (s.length : Int) := by
        have hin : toInt32 ((s.length : Int) + 1) = (s.length : Int) + 1 :=
          toInt32_eq_self (by omega) (by omega)
        rw [hin, toInt32_eq_self (by omega) (by omega)]
        omega
      have hl : toInt32 (s.length : Int) = (s.length : Int) :=
        toInt32_eq_self (by omega) (by omega)
      have hne : ¬ ((s.length : Int) ≤ 0 ∨ s.length > max_size) := by omega
      have hne0 : ¬ ((s.length : Int) = 0) := by omega
      simp only [Utf8FromUtf16, Utf8FromUtf16Run, hq, ht, hl, Int.toNat_ofNat, hne, if_false,
        hc, hne0]
      exact storeBytes_eq_of_length_eq (by simp)
  refine ⟨key, ?_, ?_, hempty⟩
  · rw [key]; exact decodeUtf8_ascii s h128
  · rw [key]

/-- C2, amended, at the wide string `arg one`. -/
theorem Utf8FromUtf16_ascii_roundtrip_witness :
    (∀ u ∈ wstr "arg one", 1 ≤ u ∧ u ≤ 127) ∧
    (((wstr "arg one").length : Int) + 1 ≤ INT_MAX) ∧
    (wstr "arg one").length ≤ 2147483647 ∧
    Utf8FromUtf16 WideCharToMultiByte 2147483647 (some (wstr "arg one")) = wstr "arg one" ∧
    decodeUtf8 (Utf8FromUtf16 WideCharToMultiByte 2147483647 (some (wstr "arg one"))) =
      some (wstr "arg one") ∧
    (Utf8FromUtf16 WideCharToMultiByte 2147483647 (some (wstr "arg one"))).length =
      (wstr "arg one").length ∧
    Utf8FromUtf16 WideCharToMultiByte 2147483647 (some []) = [] :=
  ⟨by decide, by decide, by decide,
    Utf8FromUtf16_ascii_roundtrip 2147483647 (wstr "arg one") (by decide) (by decide)
      (by decide)⟩

/-- C2 as stated fails: for the ASCII wide string of `2^31` letters `A`, no
behaviour of the OS conversion and no `max_size()` make `Utf8FromUtf16` return
a string that decodes back to the input: the length of the result is an `int`. -/
theorem Utf8FromUtf16_ascii_roundtrip_counterexample :
    (∀ u ∈ List.replicate 2147483648 65, 1 ≤ u ∧ u ≤ 127) ∧
    ¬ ∃ (wc2mb : Converter) (max_size : Nat),
      decodeUtf8 (Utf8FromUtf16 wc2mb max_size (some (List.replicate 2147483648 65))) =
        some (List.replicate 2147483648 65) := by
  constructor
  · intro u hu
    have := List.eq_of_mem_replicate hu
    omega
  · rintro ⟨wc2mb, max_size, h⟩
    have h1 := length_decodeUtf8_le _ _ _ (Nat.le_refl _) h
    have h2 := length_Utf8FromUtf16_lt wc2mb max_size (some (List.replicate 2147483648 65))
    rw [List.length_replicate] at h1
    omega

/-- C4: when the path of the executable is resolved and every registry call
succeeds, the registry afterwards holds, as default values (each a string
followed by its terminator): `Dalimaster.daliproj` at
`Software\Classes\.daliproj`; the resolved path `p` in double quotes, one
space and the quoted `%1` at
`Software\Classes\Dalimaster.daliproj\shell\open\command`; `p` at
`Software\Classes\Dalimaster.daliproj\DefaultIcon`; and `DALI Project` at
`Software\Classes\Dalimaster.daliproj`. -/
theorem RegisterFileAssociation_success (exe : Option WString) (r : Registry)
    (hres : (GetModuleFileNameW exe MAX_PATH).1 ≠ 0) :
    (RegisterFileAssociation exe Outcomes.allSucceed (World.init r)).registry.defaultValue
        "Software\\Classes\\.daliproj" = some (wstr "Dalimaster.daliproj" ++ [0]) ∧
    (RegisterFileAssociation exe Outcomes.allSucceed (World.init r)).registry.defaultValue
        "Software\\Classes\\Dalimaster.daliproj\\shell\\open\\command" =
      some (wstr "\"" ++ (GetModuleFileNameW exe MAX_PATH).2 ++ wstr "\" \"%1\"" ++ [0]) ∧
    (RegisterFileAssociation exe Outcomes.allSucceed (World.init r)).registry.defaultValue
        "Software\\Classes\\Dalimaster.daliproj\\DefaultIcon" =
      some ((GetModuleFileNameW exe MAX_PATH).2 ++ [0]) ∧
    (RegisterFileAssociation exe Outcomes.allSucceed (World.init r)).registry.defaultValue
        "Software\\Classes\\Dalimaster.daliproj" = some (wstr "DALI Project" ++ [0]) := by
  have hcmd := openCommand_eq _ (length_modulePath_lt exe)
  simp only [RegisterFileAssociation, hres, if_false, Outcomes.allSucceed, World.init,
    RegCreateKeyExW, RegSetValueExW, RegCloseKey, SHChangeNotify, take_terminated]
  simp [Registry.defaultValue, List.lookup, hcmd]

/-- C4 at the path `C:\a.exe` and the empty registry; the command value is
`"C:\a.exe" "%1"`. -/
theorem RegisterFileAssociation_success_witness :
    (GetModuleFileNameW (some (wstr "C:\\a.exe")) MAX_PATH).1 ≠ 0 ∧
    ((RegisterFileAssociation (some (wstr "C:\\a.exe")) Outcomes.allSucceed
        (World.init ⟨[], []⟩)).registry.defaultValue
        "Software\\Classes\\.daliproj" = some (wstr "Dalimaster.daliproj" ++ [0]) ∧
    (RegisterFileAssociation (some (wstr "C:\\a.exe")) Outcomes.allSucceed
        (World.init ⟨[], []⟩)).registry.defaultValue
        "Software\\Classes\\Dalimaster.daliproj\\shell\\open\\command" =
      some (wstr "\"" ++ (GetModuleFileNameW (some (wstr "C:\\a.exe")) MAX_PATH).2 ++
        wstr "\" \"%1\"" ++ [0]) ∧
    (RegisterFileAssociation (some (wstr "C:\\a.exe")) Outcomes.allSucceed
        (World.init ⟨[], []⟩)).registry.defaultValue
        "Software\\Classes\\Dalimaster.daliproj\\DefaultIcon" =
      some ((GetModuleFileNameW (some (wstr "C:\\a.exe")) MAX_PATH).2 ++ [0]) ∧
    (RegisterFileAssociation (some (wstr "C:\\a.exe")) Outcomes.allSucceed
        (World.init ⟨[], []⟩)).registry.defaultValue
        "Software\\Classes\\Dalimaster.daliproj" = some (wstr "DALI Project" ++ [0])) ∧
    wstr "\"" ++ (GetModuleFileNameW (some (wstr "C:\\a.exe")) MAX_PATH).2 ++
        wstr "\" \"%1\"" = wstr "\"C:\\a.exe\" \"%1\"" :=
  ⟨by decide,
    RegisterFileAssociation_success (some (wstr "C:\\a.exe")) ⟨[], []⟩ (by decide),
    by decide⟩

/-- C5, as amended: once the path of the executable is resolved, for every
combination of outcomes of the registry calls, the creation of the
program-identifier key, the creation of the extension key and the shell
notification are attempted; the creations of the `DefaultIcon` and
`shell\open\command` subkeys are attempted exactly when the creation of the
program-identifier key succeeded, whatever the outcome of the value writes
and of the other subkey; and a value write is attempted through a handle
exactly when the creation of its key succeeded. -/
theorem RegisterFileAssociation_steps (exe : Option WString) (o : Outcomes) (r : Registry)
    (hres : (GetModuleFileNameW exe MAX_PATH).1 ≠ 0) :
    createAttempted "Software\\Classes\\Dalimaster.daliproj"
        (RegisterFileAssociation exe o (World.init r)).log = true ∧
      createAttempted "Software\\Classes\\.daliproj"
        (RegisterFileAssociation exe o (World.init r)).log = true ∧
      Event.changeNotify ∈ (RegisterFileAssociation exe o (World.init r)).log ∧
      createAttempted "DefaultIcon"
        (RegisterFileAssociation exe o (World.init r)).log = o.createProgId ∧
      createAttempted "shell\\open\\command"
        (RegisterFileAssociation exe o (World.init r)).log = o.createProgId ∧
      (∀ h, writeAttempted h (RegisterFileAssociation exe o (World.init r)).log = true ↔
        h ∈ openedHandles (RegisterFileAssociation exe o (World.init r)).log) := by
  rcases o with ⟨c1, s1, c2, s2, c3, s3, c4, s4⟩
  cases c1 <;> cases c2 <;> cases c3 <;> cases c4 <;>
    simp [RegisterFileAssociation, hres, World.init, RegCreateKeyExW, RegCloseKey,
      SHChangeNotify, openedHandles, createAttempted, writeAttempted] <;>
    (intro h; omega)

/-- C5, amended, at the path `C:\a.exe`, the empty registry and the outcomes
in which only the creation of the program-identifier key fails. -/
theorem RegisterFileAssociation_steps_witness :
    (GetModuleFileNameW (some (wstr "C:\\a.exe")) MAX_PATH).1 ≠ 0 ∧
    (createAttempted "Software\\Classes\\Dalimaster.daliproj"
        (RegisterFileAssociation (some (wstr "C:\\a.exe"))
          ⟨false, true, true, true, true, true, true, true⟩ (World.init ⟨[], []⟩)).log = true ∧
      createAttempted "Software\\Classes\\.daliproj"
        (RegisterFileAssociation (some (wstr "C:\\a.exe"))
          ⟨false, true, true, true, true, true, true, true⟩ (World.init ⟨[], []⟩)).log = true ∧
      Event.changeNotify ∈ (RegisterFileAssociation (some (wstr "C:\\a.exe"))
          ⟨false, true, true, true, true, true, true, true⟩ (World.init ⟨[], []⟩)).log ∧
      createAttempted "DefaultIcon"
        (RegisterFileAssociation (some (wstr "C:\\a.exe"))
          ⟨false, true, true, true, true, true, true, true⟩ (World.init ⟨[], []⟩)).log =
          (⟨false, true, true, true, true, true, true, true⟩ : Outcomes).createProgId ∧
      createAttempted "shell\\open\\command"
        (RegisterFileAssociation (some (wstr "C:\\a.exe"))
          ⟨false, true, true, true, true, true, true, true⟩ (World.init ⟨[], []⟩)).log =
          (⟨false, true, true, true, true, true, true, true⟩ : Outcomes).createProgId ∧
      (∀ h, writeAttempted h (RegisterFileAssociation (some (wstr "C:\\a.exe"))
          ⟨false, true, true, true, true, true, true, true⟩ (World.init ⟨[], []⟩)).log = true ↔
        h ∈ openedHandles (RegisterFileAssociation (some (wstr "C:\\a.exe"))
          ⟨false, true, true, true, true, true, true, true⟩ (World.init ⟨[], []⟩)).log)) :=
  ⟨by decide,
    RegisterFileAssociation_steps (some (wstr "C:\\a.exe"))
      ⟨false, true, true, true, true, true, true, true⟩ ⟨[], []⟩ (by decide)⟩

/-- C5 as stated fails: with the path `C:\a.exe` resolved and only the
creation of the program-identifier key failing, neither the creation of the
`DefaultIcon` subkey nor that of the `shell\open\command` subkey is
attempted. -/
theorem RegisterFileAssociation_steps_counterexample :
    (GetModuleFileNameW (some (wstr "C:\\a.exe")) MAX_PATH).1 ≠ 0 ∧
    createAttempted "DefaultIcon"
      (RegisterFileAssociation (some (wstr "C:\\a.exe"))
        ⟨false, true, true, true, true, true, true, true⟩ (World.init ⟨[], []⟩)).log = false ∧
    createAttempted "shell\\open\\command"
      (RegisterFileAssociation (some (wstr "C:\\a.exe"))
        ⟨false, true, true, true, true, true, true, true⟩ (World.init ⟨[], []⟩)).log = false := by
  decide

/-- C6: when `GetModuleFileNameW` returns `0`, `RegisterFileAssociation` leaves
the state as it found it, for every prior state and all outcomes: the registry
is unchanged and no call is added to the log (no key creation, no value
write, no notification). -/
theorem RegisterFileAssociation_unresolved (exe : Option WString) (o : Outcomes) (w0 : World)
    (h : (GetModuleFileNameW exe MAX_PATH).1 = 0) :
    RegisterFileAssociation exe o w0 = w0 ∧
      (RegisterFileAssociation exe o w0).registry = w0.registry ∧
      (RegisterFileAssociation exe o w0).log = w0.log := by
  simp [RegisterFileAssociation, h]

/-- C6 at a failing path resolution, all registry calls allowed to succeed,
from the empty registry. -/
theorem RegisterFileAssociation_unresolved_witness :
    (GetModuleFileNameW none MAX_PATH).1 = 0 ∧
    (RegisterFileAssociation none Outcomes.allSucceed (World.init ⟨[], []⟩) =
        World.init ⟨[], []⟩ ∧
      (RegisterFileAssociation none Outcomes.allSucceed (World.init ⟨[], []⟩)).registry =
        (World.init ⟨[], []⟩).registry ∧
      (RegisterFileAssociation none Outcomes.allSucceed (World.init ⟨[], []⟩)).log =
        (World.init ⟨[], []⟩).log) :=
  ⟨by decide,
    RegisterFileAssociation_unresolved none Outcomes.allSucceed (World.init ⟨[], []⟩)
      (by decide)⟩

/-- C8: for every path resolution, every combination of outcomes and every
registry, at return no key handle is open; the handles opened are distinct,
each is closed exactly once, only opened handles are closed, and the handle
of a subkey is closed before the handle of its parent. -/
theorem RegisterFileAssociation_handles (exe : Option WString) (o : Outcomes) (r : Registry) :
    (RegisterFileAssociation exe o (World.init r)).handles = [] ∧
      (openedHandles (RegisterFileAssociation exe o (World.init r)).log).Nodup ∧
      (∀ h ∈ openedHandles (RegisterFileAssociation exe o (World.init r)).log,
        (closedHandles (RegisterFileAssociation exe o (World.init r)).log).count h = 1) ∧
      (∀ h ∈ closedHandles (RegisterFileAssociation exe o (World.init r)).log,
        h ∈ openedHandles (RegisterFileAssociation exe o (World.init r)).log) ∧
      (∀ pc ∈ subkeyPairs (RegisterFileAssociation exe o (World.init r)).log,
        (closedHandles (RegisterFileAssociation exe o (World.init r)).log).indexOf pc.2 <
          (closedHandles (RegisterFileAssociation exe o (World.init r)).log).indexOf pc.1) := by
  by_cases hres : (GetModuleFileNameW exe MAX_PATH).1 = 0
  · simp [RegisterFileAssociation, hres, World.init, openedHandles, closedHandles, subkeyPairs]
  · rcases o with ⟨c1, s1, c2, s2, c3, s3, c4, s4⟩
    cases c1 <;> cases c2 <;> cases c3 <;> cases c4 <;>
      simp [RegisterFileAssociation, hres, World.init, RegCreateKeyExW, RegCloseKey,
        SHChangeNotify, openedHandles, closedHandles, subkeyPairs]

/-- C10: for a resolved path of `n ≤ MAX_PATH - 1 = 259` code units the
formatted command has `n + 7` characters; with its terminator it takes at
most 267 of the `MAX_PATH * 2 = 520` elements of `cmd`; it is shorter than the
output limit of `wsprintfW`; and whenever the command key is created, the
write of its value is passed the command with its terminator and the byte
count `2 * (n + 8)`. -/
theorem openCommand_fits (p : WString) (hp : p.length ≤ MAX_PATH - 1) :
    (openCommand p).length = p.length + 7 ∧
      (openCommand p).length + 1 ≤ 267 ∧
      MAX_PATH * 2 = 520 ∧
      (openCommand p).length + 1 ≤ MAX_PATH * 2 ∧
      (openCommand p).length < wsprintfLimit ∧
      (∀ (o : Outcomes) (r : Registry), p ≠ [] → o.createProgId = true →
        o.createCommand = true →
        ∃ h, Event.setValue h (openCommand p ++ [0]) (2 * (p.length + 8)) o.setCommand ∈
          (RegisterFileAssociation (some p) o (World.init r)).log) := by
  have hp259 : p.length ≤ 259 := hp
  have hlt : p.length < MAX_PATH := by simp only [MAX_PATH]; omega
  have hlen := length_openCommand p hlt
  refine ⟨hlen, by omega, by decide, by simp only [MAX_PATH]; omega,
    by simp only [wsprintfLimit]; omega, ?_⟩
  intro o r hne h1 h3
  have hpos : 0 < p.length := List.length_pos.mpr hne
  have hm : GetModuleFileNameW (some p) MAX_PATH = (p.length, p) := by
    simp [GetModuleFileNameW, hlt]
  have hres : ¬ (p.length = 0) := by omega
  have hcb : sizeof_wchar_t * ((openCommand p).length + 1) = 2 * (p.length + 8) := by
    rw [hlen]; simp [sizeof_wchar_t]
  have ht := take_terminated (openCommand p)
  rw [hcb] at ht
  rcases o with ⟨c1, s1, c2, s2, c3, s3, c4, s4⟩
  simp only at h1 h3
  subst h1 h3
  refine ⟨if c2 = true then 2 else 1, ?_⟩
  cases c2 <;> cases c4 <;>
    simp [RegisterFileAssociation, hm, hres, World.init, RegCreateKeyExW, RegCloseKey,
      SHChangeNotify, hcb, ht]

/-- C10 at the path `C:\a.exe`. -/
theorem openCommand_fits_witness :
    (wstr "C:\\a.exe").length ≤ MAX_PATH - 1 ∧
    ((openCommand (wstr "C:\\a.exe")).length = (wstr "C:\\a.exe").length + 7 ∧
      (openCommand (wstr "C:\\a.exe")).length + 1 ≤ 267 ∧
      MAX_PATH * 2 = 520 ∧
      (openCommand (wstr "C:\\a.exe")).length + 1 ≤ MAX_PATH * 2 ∧
      (openCommand (wstr "C:\\a.exe")).length < wsprintfLimit ∧
      (∀ (o : Outcomes) (r : Registry), wstr "C:\\a.exe" ≠ [] → o.createProgId = true →
        o.createCommand = true →
        ∃ h, Event.setValue h (openCommand (wstr "C:\\a.exe") ++ [0])
            (2 * ((wstr "C:\\a.exe").length + 8)) o.setCommand ∈
          (RegisterFileAssociation (some (wstr "C:\\a.exe")) o (World.init r)).log)) :=
  ⟨by decide, openCommand_fits (wstr "C:\\a.exe") (by decide)⟩

end Runner
